import Mathlib

/-
Verification of the NOVA Smart-RAG backend core (document ingestion,
reference resolution and chat-session linkage) against its specification.

The Python route handlers are shallowly embedded as pure Lean functions.
Strings are modelled as `List Char`; the empty list plays the role of both
the empty string and a missing (`None`) value, matching the truthiness
tests (`if not s:`) used throughout the handlers.  The Supabase storage
client's `create_signed_url` is modelled as an abstract oracle
`Str → Nat → Option Str` (`none` = no "signedURL" in the response or an
exception), and the database as explicit lists of rows.
-/

namespace Nova

abbrev Str := List Char

/-- The sixteen uppercase hexadecimal digits, as emitted by `urllib.parse.quote`. -/
def hexChars : Str := "0123456789ABCDEF".toList

/-- Hex digit for a nibble, as used when percent-encoding a byte. -/
def hexDigit (n : Nat) : Char := hexChars.getD (n % 16) '0'

/-- Recognizer for hexadecimal digits (both cases), as accepted by `urllib.parse.unquote`. -/
def isHexDigitB (c : Char) : Bool :=
  ('0' ≤ c && c ≤ '9') || ('A' ≤ c && c ≤ 'F') || ('a' ≤ c && c ≤ 'f')

/-- Numeric value of a hexadecimal digit. -/
def hexVal (c : Char) : Nat :=
  if '0' ≤ c && c ≤ '9' then c.toNat - '0'.toNat
  else if 'A' ≤ c && c ≤ 'F' then c.toNat - 'A'.toNat + 10
  else if 'a' ≤ c && c ≤ 'f' then c.toNat - 'a'.toNat + 10
  else 0

/-- Characters left unescaped by `urllib.parse.quote` with its default
`safe` parameter (ASCII alphanumerics, `_.-~` and the slash). -/
def safeChar (c : Char) : Bool :=
  c.isAlphanum || c == '_' || c == '.' || c == '-' || c == '~' || c == '/'

/-- Percent-encoding of one (single-byte) character. -/
def quoteChar (c : Char) : Str :=
  if safeChar c then [c] else ['%', hexDigit (c.toNat / 16), hexDigit (c.toNat % 16)]

/-- `urllib.parse.quote` on the ASCII fragment (each character one byte). -/
def quoteL : Str → Str
  | [] => []
  | c :: cs => quoteChar c ++ quoteL cs

/-- `urllib.parse.unquote` on the single-byte fragment: a `%` followed by two
hex digits decodes to the corresponding character, any other `%` is kept verbatim. -/
def unquoteL : Str → Str
  | [] => []
  | c :: h1 :: h2 :: tail =>
    if c = '%' && isHexDigitB h1 && isHexDigitB h2 then
      Char.ofNat (16 * hexVal h1 + hexVal h2) :: unquoteL tail
    else
      c :: unquoteL (h1 :: h2 :: tail)
  | c :: rest => c :: unquoteL rest
termination_by s => s.length
decreasing_by all_goals (simp only [List.length_cons]; omega)

/-- Python's `str.split(sep)` for a non-empty separator: the pieces of the
string between the non-overlapping left-to-right occurrences of `sep`.
When the separator is empty the string is returned as a single piece. -/
def splitSub (sep : Str) : Str → List Str
  | [] => [[]]
  | c :: rest =>
    if h : sep ≠ [] ∧ sep.isPrefixOf (c :: rest) then
      [] :: splitSub sep ((c :: rest).drop sep.length)
    else
      match splitSub sep rest with
      | [] => [[c]]
      | x :: xs => (c :: x) :: xs
termination_by s => s.length
decreasing_by
  · have hpos : 0 < sep.length := List.length_pos.mpr h.1
    simp [List.length_drop]
    omega
  · simp

/-- Python's substring containment test (`sep in s`). -/
def hasSub (sep : Str) : Str → Bool
  | [] => sep.isPrefixOf []
  | c :: rest => sep.isPrefixOf (c :: rest) || hasSub sep rest

/-- The marker segment of a Supabase "signed"-shape storage URL. -/
def signMarker : Str := "/object/sign/".toList

/-- The marker segment of a Supabase "public"-shape storage URL. -/
def publicMarker : Str := "/storage/v1/object/public/".toList

/-- Path extraction performed by `get_pdf` on a cached `public_url`
(Method 2 of the resolver): split on the signed marker, keep the part
before the query string and percent-decode it; for the public shape,
additionally drop the leading bucket-name segment.  Returns the empty
string when neither shape matches (Python leaves `file_path = None`). -/
def parsePublicUrl (url : Str) : Str :=
  if hasSub signMarker url then
    match splitSub signMarker url with
    | _ :: pathWithParams :: _ => unquoteL (pathWithParams.takeWhile (fun c => c != '?'))
    | _ => []
  else if hasSub publicMarker url then
    match splitSub publicMarker url with
    | _ :: bucketAndPath :: _ =>
      match splitSub (['/'] : Str) bucketAndPath with
      | _ :: rest => if rest.isEmpty then [] else unquoteL (List.intercalate (['/'] : Str) rest)
      | [] => []
    | _ => []
  else []

/-- A "signed"-shape URL embedding the percent-encoded path `p` after the
marker and before the query string, as issued by the blob store. -/
def buildSignedUrl (base p tok : Str) : Str :=
  base ++ signMarker ++ quoteL p ++ '?' :: tok

/-- Characters that percent-encode to themselves and can never appear in
the escape triples emitted by `quoteL` (no `%`, no uppercase-hex digit):
occurrences of strings made of such characters survive quoting unchanged. -/
def goodChar (c : Char) : Prop := safeChar c = true ∧ c ≠ '%' ∧ c ∉ hexChars

instance : DecidablePred goodChar := fun c => by unfold goodChar; infer_instance

instance {ε α : Type} [DecidableEq ε] [DecidableEq α] : DecidableEq (Except ε α)
  | .error e1, .error e2 =>
    if h : e1 = e2 then .isTrue (congrArg _ h) else .isFalse (fun hc => h (Except.error.inj hc))
  | .error _, .ok _ => .isFalse Except.noConfusion
  | .ok _, .error _ => .isFalse Except.noConfusion
  | .ok a1, .ok a2 =>
    if h : a1 = a2 then .isTrue (congrArg _ h) else .isFalse (fun hc => h (Except.ok.inj hc))

/-- The blob store's `create_signed_url`, abstracted: `none` models both a
raised exception and a response without a `signedURL` field. -/
abbrev Sign := Str → Nat → Option Str

/-- The set of object paths present in the storage bucket. -/
abbrev Store := List Str

/-- Row of the `pdf_files` table. -/
structure PdfRecord where
  id : Str
  user_id : Str
  filename : Str
  supabase_path : Str
  public_url : Str
  embedding_status : Str
deriving DecidableEq

/-- Row of the `csv_datasets` table. -/
structure CsvRecord where
  id : Str
  user_id : Str
  filename : Str
  supabase_path : Str
  public_url : Str
  embedding_status : Str
deriving DecidableEq

/-- Row of the `chat_sessions` table. -/
structure ChatSession where
  id : Str
  user_id : Str
  title : Str
  feature_type : Str
  source_id : Str
deriving DecidableEq

/-- Row of the `chat_messages` table. -/
structure ChatMessage where
  id : Str
  session_id : Str
  content : Str
deriving DecidableEq

/-- The relational state touched by the sampled routes. -/
structure DB where
  pdf_files : List PdfRecord
  csv_datasets : List CsvRecord
  chat_sessions : List ChatSession
  chat_messages : List ChatMessage
deriving DecidableEq

/-- `generate_pdf_signed_url`: the `try`/`except` plus `signedURL`-presence
check collapse into the oracle's `Option`. -/
def generate_pdf_signed_url (sign : Sign) (file_path : Str) (expires_in : Nat) : Option Str :=
  sign file_path expires_in

/-- `generate_csv_signed_url` (identical wrapper on the CSV side). -/
def generate_csv_signed_url (sign : Sign) (file_path : Str) (expires_in : Nat) : Option Str :=
  sign file_path expires_in

/-- The `potential_paths` list built by `get_pdf` Method 3, in source order. -/
def pdfCandidatePaths (uid fn : Str) : List Str :=
  [ "pdfs/".toList ++ uid ++ "/".toList ++ fn
  , "pdfs/".toList ++ fn
  , uid ++ "/".toList ++ fn ]

/-- The Method-3 probing loop: each candidate is tested with a 60-second
signed-URL request and the first success is kept (`break`). -/
def firstProbe (sign : Sign) : List Str → Str
  | [] => []
  | c :: cs => if (generate_pdf_signed_url sign c 60).isSome then c else firstProbe sign cs

/-- The reference resolver inlined in `get_pdf`: Method 1 uses
`supabase_path` directly, Method 2 parses the cached `public_url`,
Method 3 probes candidate paths built from the owner id and filename. -/
def resolvePdfPath (sign : Sign) (uid : Str) (rec : PdfRecord) : Str :=
  let m12 : Str :=
    if rec.supabase_path ≠ [] then rec.supabase_path
    else if rec.public_url ≠ [] then parsePublicUrl rec.public_url
    else []
  if m12 ≠ [] then m12
  else if rec.filename ≠ [] then firstProbe sign (pdfCandidatePaths uid rec.filename)
  else []

/-- `GET /api/pdf/{pdf_id}`: owner-scoped read, resolver, fresh 1-hour URL,
best-effort write-back (filtered by id only), and the two failure paths that
return the record with an empty `public_url`. -/
def get_pdf (sign : Sign) (db : DB) (pdf_id uid : Str) : Except Nat PdfRecord × DB :=
  if pdf_id = [] then (.error 400, db)
  else
    match db.pdf_files.filter (fun r => r.id == pdf_id && r.user_id == uid) with
    | [] => (.error 404, db)
    | rec :: _ =>
      let fp := resolvePdfPath sign uid rec
      if fp ≠ [] then
        match generate_pdf_signed_url sign fp 3600 with
        | some fresh =>
          let upd : PdfRecord → PdfRecord := fun r =>
            if rec.supabase_path ≠ [] then { r with public_url := fresh }
            else { r with public_url := fresh, supabase_path := fp }
          (.ok (upd rec),
           { db with pdf_files := db.pdf_files.map (fun r => if r.id == pdf_id then upd r else r) })
        | none => (.ok { rec with public_url := [] }, db)
      else (.ok { rec with public_url := [] }, db)

/-- `GET /api/csv/{csv_id}`: owner-scoped read; unlike the PDF variant, a
missing path or a failed signed-URL mint raises HTTP 500. -/
def get_csv (sign : Sign) (db : DB) (csv_id uid : Str) : Except Nat CsvRecord × DB :=
  if csv_id = [] then (.error 400, db)
  else
    match db.csv_datasets.filter (fun r => r.id == csv_id && r.user_id == uid) with
    | [] => (.error 404, db)
    | rec :: _ =>
      let fp := rec.supabase_path
      if fp ≠ [] then
        match generate_csv_signed_url sign fp 3600 with
        | some fresh =>
          (.ok { rec with public_url := fresh },
           { db with csv_datasets :=
               db.csv_datasets.map (fun r => if r.id == csv_id then { r with public_url := fresh } else r) })
        | none => (.error 500, db)
      else (.error 500, db)

/-- `POST /api/pdf/upload-pdf`.  `gen` is the fresh UUID used for the object
name, `recId` the fresh record id, `size` the byte length of the payload;
`embedOk` abstracts the embedding collaborator's outcome. -/
def upload_pdf (sign : Sign) (db : DB) (store : Store) (uid : Str)
    (origFilename contentType : Str) (size : Nat) (gen recId : Str) (embedOk : Bool) :
    Except Nat PdfRecord × DB × Store :=
  if contentType ≠ "application/pdf".toList then (.error 400, db, store)
  else if size > 200 * 1024 * 1024 then (.error 400, db, store)
  else
    let objectName := gen ++ ".pdf".toList
    let path := "pdfs/".toList ++ uid ++ "/".toList ++ objectName
    if store.contains path then (.error 500, db, store)
    else
      let store1 := store ++ [path]
      match sign path 604800 with
      | none => (.error 500, db, store1)
      | some url =>
        let rec1 : PdfRecord := ⟨recId, uid, origFilename, path, url, "pending".toList⟩
        let db1 := { db with pdf_files := db.pdf_files ++ [rec1] }
        if embedOk then (.ok rec1, db1, store1) else (.error 500, db1, store1)

/-- The `allowed_types` list of `upload_csv`. -/
def csvAllowedTypes : List Str :=
  [ "text/csv".toList
  , "application/csv".toList
  , "application/vnd.ms-excel".toList
  , "text/plain".toList
  , "application/octet-stream".toList ]

/-- Python's `str.lower()` on the ASCII fragment. -/
def lowerL (s : Str) : Str := s.map Char.toLower

/-- The part of `upload_csv` after the filename/content-type checks:
size check, storage write, signed URL, record insert, embedding call. -/
def upload_csv_checked (sign : Sign) (db : DB) (store : Store) (uid : Str)
    (origFilename : Str) (size : Nat) (gen recId : Str) (embedOk : Bool) :
    Except Nat CsvRecord × DB × Store :=
  if size > 50 * 1024 * 1024 then (.error 400, db, store)
  else
    let objectName := gen ++ ".csv".toList
    let path := "csvs/".toList ++ uid ++ "/".toList ++ objectName
    if store.contains path then (.error 500, db, store)
    else
      let store1 := store ++ [path]
      match sign path 604800 with
      | none => (.error 500, db, store1)
      | some _ =>
        let rec1 : CsvRecord := ⟨recId, uid, origFilename, path, [], "pending".toList⟩
        let db1 := { db with csv_datasets := db.csv_datasets ++ [rec1] }
        if embedOk then (.ok rec1, db1, store1) else (.error 500, db1, store1)

/-- `POST /api/csv/upload-csv`.  The second content-type test is kept
verbatim from the source even though its inner extension re-check can never
fire once the first check has passed. -/
def upload_csv (sign : Sign) (db : DB) (store : Store) (uid : Str)
    (origFilename contentType : Str) (size : Nat) (gen recId : Str) (embedOk : Bool) :
    Except Nat CsvRecord × DB × Store :=
  if ¬ (origFilename ≠ [] ∧ (".csv".toList).isSuffixOf (lowerL origFilename)) then
    (.error 400, db, store)
  else if contentType ∉ csvAllowedTypes ∧ ¬ (".csv".toList).isSuffixOf (lowerL origFilename) then
    (.error 400, db, store)
  else upload_csv_checked sign db store uid origFilename size gen recId embedOk

/-- The pydantic request model of `POST /api/chat/create-session`:
`title`, `feature_type` and `source_id` are all declared as required `str`
fields. -/
structure CreateChatSessionRequest where
  title : Str
  feature_type : Str
  source_id : Str
deriving DecidableEq

/-- Pydantic's validation of the request body: a missing required field
rejects the request with a 422 validation error before the handler runs. -/
def parseCreateChatSessionRequest (title feature_type source_id : Option Str) :
    Except Nat CreateChatSessionRequest :=
  match title, feature_type, source_id with
  | some t, some f, some s => .ok ⟨t, f, s⟩
  | _, _, _ => .error 422

/-- `POST /api/chat/create-session`: when `source_id` is truthy, its
ownership is checked against the `pdf_files` table only; the stored
`source_id` is the request's value (`None` when falsy, which the empty
string also denotes here). -/
def create_chat_session (db : DB) (uid : Str) (req : CreateChatSessionRequest) (newId : Str) :
    Except Nat ChatSession × DB :=
  if req.source_id ≠ [] ∧
      (db.pdf_files.filter (fun r => r.id == req.source_id && r.user_id == uid)).isEmpty then
    (.error 404, db)
  else
    let s : ChatSession := ⟨newId, uid, req.title, req.feature_type, req.source_id⟩
    (.ok s, { db with chat_sessions := db.chat_sessions ++ [s] })

/-- `DELETE /api/chat/{session_id}`: owner-scoped existence check, then
message deletion (by session id), then session deletion (by id and owner). -/
def delete_chat_session (db : DB) (sid uid : Str) : Except Nat Unit × DB :=
  if sid = [] then (.error 400, db)
  else if (db.chat_sessions.filter (fun s => s.id == sid && s.user_id == uid)).isEmpty then
    (.error 404, db)
  else
    let db1 := { db with chat_messages := db.chat_messages.filter (fun m => !(m.session_id == sid)) }
    let db2 := { db1 with chat_sessions :=
                  db1.chat_sessions.filter (fun s => !(s.id == sid && s.user_id == uid)) }
    (.ok (), db2)

/-- `GET /api/chat/{session_id}/messages`: two-step read — owner-scoped
session lookup (404 on failure), then the session's messages. -/
def get_chat_messages (db : DB) (sid uid : Str) (lim : Nat) : Except Nat (List ChatMessage) :=
  if sid = [] then .error 400
  else if (db.chat_sessions.filter (fun s => s.id == sid && s.user_id == uid)).isEmpty then
    .error 404
  else .ok ((db.chat_messages.filter (fun m => m.session_id == sid)).take lim)

/-- A filename whose lowercasing ends in `.csv` is non-empty. -/
theorem csv_suffix_ne_nil {fn : Str} (h : (".csv".toList).isSuffixOf (lowerL fn) = true) :
    fn ≠ [] := by
  intro hfn
  subst hfn
  simp [lowerL] at h

/-- After the filename and content-type checks, the only 400 rejection left
in `upload_csv` is the payload-size check. -/
theorem upload_csv_checked_400_oversize (sign : Sign) (db : DB) (store : Store)
    (uid fn : Str) (size : Nat) (gen recId : Str) (emb : Bool)
    (h : (upload_csv_checked sign db store uid fn size gen recId emb).1 = Except.error 400) :
    size > 50 * 1024 * 1024 := by
  by_contra hsize
  unfold upload_csv_checked at h
  rw [if_neg hsize] at h
  by_cases hmem : ('c' :: 's' :: 'v' :: 's' :: '/' :: (uid ++ '/' :: (gen ++ ['.', 'c', 's', 'v']))) ∈ store
  · simp [hmem] at h
  · rcases hsig : sign ('c' :: 's' :: 'v' :: 's' :: '/' :: (uid ++ '/' :: (gen ++ ['.', 'c', 's', 'v']))) 604800
      with _ | u
    · simp [hmem, hsig] at h
    · rcases emb with _ | _ <;> simp [hmem, hsig] at h

/-- C6: `uploadCsv` accepts exactly the filenames ending in `.csv`
(case-insensitively): when the extension matches, the outcome does not
depend on the reported content-type at all and the request is never
rejected as a 400 validation error when the payload is within the 50MB
limit; when the extension does not match, the request is rejected with a
400 validation error regardless of content-type. -/
theorem c6_csv_validation_extension_overrides
    (sign : Sign) (db : DB) (store : Store) (uid fn ct ct2 : Str) (size : Nat)
    (gen recId : Str) (emb : Bool) :
    ((".csv".toList).isSuffixOf (lowerL fn) = true →
        upload_csv sign db store uid fn ct size gen recId emb =
          upload_csv sign db store uid fn ct2 size gen recId emb) ∧
    ((".csv".toList).isSuffixOf (lowerL fn) = true → size ≤ 50 * 1024 * 1024 →
        (upload_csv sign db store uid fn ct size gen recId emb).1 ≠ Except.error 400) ∧
    ((".csv".toList).isSuffixOf (lowerL fn) = false →
        upload_csv sign db store uid fn ct size gen recId emb = (.error 400, db, store)) := by
  refine ⟨?_, ?_, ?_⟩
  · intro hs
    have hfn := csv_suffix_ne_nil hs
    have hs2 : (['.', 'c', 's', 'v'] : Str) <:+ lowerL fn := by simpa using hs
    unfold upload_csv
    rw [if_neg (show ¬¬(fn ≠ [] ∧ (".csv".toList).isSuffixOf (lowerL fn) = true) by
          simp [hs2, hfn]),
      if_neg (show ¬(ct ∉ csvAllowedTypes ∧ ¬(".csv".toList).isSuffixOf (lowerL fn) = true) by
          simp [hs2]),
      if_neg (show ¬(ct2 ∉ csvAllowedTypes ∧ ¬(".csv".toList).isSuffixOf (lowerL fn) = true) by
          simp [hs2]),
      if_neg (show ¬¬(fn ≠ [] ∧ (".csv".toList).isSuffixOf (lowerL fn) = true) by
          simp [hs2, hfn])]
  · intro hs hsize
    have hfn := csv_suffix_ne_nil hs
    have hs2 : (['.', 'c', 's', 'v'] : Str) <:+ lowerL fn := by simpa using hs
    have hsize2 : ¬ size > 50 * 1024 * 1024 := by omega
    unfold upload_csv
    rw [if_neg (show ¬¬(fn ≠ [] ∧ (".csv".toList).isSuffixOf (lowerL fn) = true) by
          simp [hs2, hfn]),
      if_neg (show ¬(ct ∉ csvAllowedTypes ∧ ¬(".csv".toList).isSuffixOf (lowerL fn) = true) by
          simp [hs2])]
    intro hcontra
    exact absurd (upload_csv_checked_400_oversize sign db store uid fn size gen recId emb hcontra)
      hsize2
  · intro hs
    have hs0 : (['.', 'c', 's', 'v'] : Str).isSuffixOf (lowerL fn) = false := hs
    have hs3 : ¬ ((['.', 'c', 's', 'v'] : Str) <:+ lowerL fn) := by
      rw [← List.isSuffixOf_iff_suffix, hs0]
      simp
    simp [upload_csv, hs3]

/-- Witness for C6: `data.csv` with content-type `application/octet-stream`
behaves exactly like `data.csv` with `text/csv` and is not rejected, while
`data.txt` is rejected with 400 even under a CSV content-type. -/
theorem c6_csv_validation_extension_overrides_witness :
    (upload_csv (fun _ _ => some ['u']) ⟨[], [], [], []⟩ [] ['u'] ("data.csv".toList)
        ("application/octet-stream".toList) 10 ['g'] ['r'] true =
      upload_csv (fun _ _ => some ['u']) ⟨[], [], [], []⟩ [] ['u'] ("data.csv".toList)
        ("text/csv".toList) 10 ['g'] ['r'] true) ∧
    ((upload_csv (fun _ _ => some ['u']) ⟨[], [], [], []⟩ [] ['u'] ("data.csv".toList)
        ("application/octet-stream".toList) 10 ['g'] ['r'] true).1 ≠ Except.error 400) ∧
    (upload_csv (fun _ _ => some ['u']) ⟨[], [], [], []⟩ [] ['u'] ("data.txt".toList)
        ("text/csv".toList) 10 ['g'] ['r'] true = (.error 400, ⟨[], [], [], []⟩, [])) :=
  ⟨(c6_csv_validation_extension_overrides (fun _ _ => some ['u']) ⟨[], [], [], []⟩ [] ['u']
      ("data.csv".toList) ("application/octet-stream".toList) ("text/csv".toList) 10 ['g'] ['r']
      true).1 (by decide),
   (c6_csv_validation_extension_overrides (fun _ _ => some ['u']) ⟨[], [], [], []⟩ [] ['u']
      ("data.csv".toList) ("application/octet-stream".toList) ("text/csv".toList) 10 ['g'] ['r']
      true).2.1 (by decide) (by decide),
   (c6_csv_validation_extension_overrides (fun _ _ => some ['u']) ⟨[], [], [], []⟩ [] ['u']
      ("data.txt".toList) ("text/csv".toList) ("text/csv".toList) 10 ['g'] ['r']
      true).2.2 (by decide)⟩

/-- C7: a validation failure (wrong content-type or oversized payload for
PDF; bad filename or oversized payload for CSV) rejects the request with a
400 before any storage write, record insert or other state mutation: the
blob store and the database are returned unchanged. -/
theorem c7_validation_failure_no_side_effects
    (sign : Sign) (db : DB) (store : Store) (uid fn ct : Str) (size : Nat)
    (gen recId : Str) (emb : Bool) :
    (ct ≠ "application/pdf".toList ∨ size > 200 * 1024 * 1024 →
        upload_pdf sign db store uid fn ct size gen recId emb = (.error 400, db, store)) ∧
    (¬ (fn ≠ [] ∧ (".csv".toList).isSuffixOf (lowerL fn) = true) ∨ size > 50 * 1024 * 1024 →
        upload_csv sign db store uid fn ct size gen recId emb = (.error 400, db, store)) := by
  constructor
  · intro h
    unfold upload_pdf
    by_cases hct : ct ≠ "application/pdf".toList
    · rw [if_pos hct]
    · rw [if_neg hct]
      have hsize : size > 200 * 1024 * 1024 := by tauto
      rw [if_pos hsize]
  · intro h
    unfold upload_csv
    by_cases hval : ¬ (fn ≠ [] ∧ (".csv".toList).isSuffixOf (lowerL fn) = true)
    · rw [if_pos hval]
    · rw [if_neg hval]
      have hvalid := not_not.mp hval
      rw [if_neg (show ¬ (ct ∉ csvAllowedTypes ∧ ¬ (".csv".toList).isSuffixOf (lowerL fn) = true)
            from fun hc => hc.2 hvalid.2)]
      have hsize : size > 50 * 1024 * 1024 := by tauto
      unfold upload_csv_checked
      rw [if_pos hsize]

/-- Witness for C7: a 201MB PDF upload and a `data.txt` CSV upload are both
rejected with the database and blob store untouched. -/
theorem c7_validation_failure_no_side_effects_witness :
    (upload_pdf (fun _ _ => some ['u']) ⟨[], [], [], []⟩ [] ['u'] ['f']
        ("application/pdf".toList) (201 * 1024 * 1024) ['g'] ['r'] true =
      (.error 400, ⟨[], [], [], []⟩, [])) ∧
    (upload_csv (fun _ _ => some ['u']) ⟨[], [], [], []⟩ [] ['u'] ("data.txt".toList)
        ("text/csv".toList) 10 ['g'] ['r'] true = (.error 400, ⟨[], [], [], []⟩, [])) :=
  ⟨(c7_validation_failure_no_side_effects (fun _ _ => some ['u']) ⟨[], [], [], []⟩ [] ['u'] ['f']
      ("application/pdf".toList) (201 * 1024 * 1024) ['g'] ['r'] true).1 (by right; decide),
   (c7_validation_failure_no_side_effects (fun _ _ => some ['u']) ⟨[], [], [], []⟩ [] ['u']
      ("data.txt".toList) ("text/csv".toList) 10 ['g'] ['r'] true).2 (by left; decide)⟩

/-- C9 counterexample: the request schema declares `source_id` as a
required field, so a request body that omits it entirely is rejected by
validation with a 422 and no session is created; `createSession` therefore
does not accept a request that supplies no `sourceId`. -/
theorem c9_counterexample_missing_source_id_rejected :
    parseCreateChatSessionRequest (some ['t']) (some ("pdf-chat".toList)) none =
      .error 422 := rfl

/-- C9 (amended): the `source_id` field is required by the request schema,
but the empty string — the field's falsy value, which the handler maps to a
null stored source id — is accepted: such a session is created with an
empty source reference and the ownership check is skipped no matter what
the source tables contain. -/
theorem c9_amended_empty_source_id_skips_check (db : DB) (uid t f nid : Str) :
    parseCreateChatSessionRequest (some t) (some f) (some []) = .ok ⟨t, f, []⟩ ∧
    create_chat_session db uid ⟨t, f, []⟩ nid =
      (.ok ⟨nid, uid, t, f, []⟩,
       { db with chat_sessions := db.chat_sessions ++ [⟨nid, uid, t, f, []⟩] }) := by
  constructor
  · rfl
  · unfold create_chat_session
    rw [if_neg (by simp)]

/-- C3: `createSession` with a non-empty `sourceId` creates a session only
when a Source with that id owned by the caller exists; when no such Source
(PDF or CSV) exists for the caller it fails with 404 and the database is
unchanged; a 403 response is impossible. -/
theorem c3_create_session_source_ownership
    (db : DB) (uid : Str) (req : CreateChatSessionRequest) (nid : Str) :
    ((create_chat_session db uid req nid).1 ≠ Except.error 403) ∧
    (∀ s db2, create_chat_session db uid req nid = (.ok s, db2) → req.source_id ≠ [] →
        ∃ r ∈ db.pdf_files, r.id = req.source_id ∧ r.user_id = uid) ∧
    (req.source_id ≠ [] →
        (∀ r ∈ db.pdf_files, ¬ (r.id = req.source_id ∧ r.user_id = uid)) →
        (∀ r ∈ db.csv_datasets, ¬ (r.id = req.source_id ∧ r.user_id = uid)) →
        create_chat_session db uid req nid = (.error 404, db)) := by
  refine ⟨?_, ?_, ?_⟩
  · unfold create_chat_session
    split <;> simp
  · intro s db2 h hsid
    unfold create_chat_session at h
    split at h
    · simp at h
    · rename_i hcond
      have hne : ¬ (db.pdf_files.filter
          (fun r => r.id == req.source_id && r.user_id == uid)).isEmpty := fun he =>
        hcond ⟨hsid, he⟩
      rw [List.isEmpty_iff] at hne
      obtain ⟨r, hr⟩ := List.exists_mem_of_ne_nil _ hne
      have := List.mem_filter.mp hr
      refine ⟨r, this.1, ?_, ?_⟩
      · have h1 := this.2
        simp at h1
        exact h1.1
      · have h1 := this.2
        simp at h1
        exact h1.2
  · intro hsid h1 h2
    unfold create_chat_session
    rw [if_pos]
    refine ⟨hsid, ?_⟩
    rw [List.isEmpty_iff]
    rw [List.filter_eq_nil_iff]
    intro r hr
    have := h1 r hr
    simp
    intro hid
    intro huid
    exact this ⟨hid, huid⟩

/-- Witness for C3: with an empty database and a non-empty source id the
call fails 404 without touching the database, and no call returns 403. -/
theorem c3_create_session_source_ownership_witness :
    create_chat_session ⟨[], [], [], []⟩ ['u'] ⟨['t'], ['f'], ['s']⟩ ['n'] =
      (.error 404, ⟨[], [], [], []⟩) :=
  (c3_create_session_source_ownership ⟨[], [], [], []⟩ ['u'] ⟨['t'], ['f'], ['s']⟩ ['n']).2.2
    (by decide) (by intro r hr; simp at hr) (by intro r hr; simp at hr)

/-- C8: deleting a session the caller owns succeeds, removes every message
of that session (the messages are deleted before the session row), and a
subsequent `listMessages` on the same session id by the same caller fails
as not-found. -/
theorem c8_delete_session_cascades (db : DB) (sid uid : Str) (lim : Nat)
    (hsid : sid ≠ [])
    (hex : ∃ s ∈ db.chat_sessions, s.id = sid ∧ s.user_id = uid) :
    ∃ db2, delete_chat_session db sid uid = (.ok (), db2) ∧
      (∀ m ∈ db2.chat_messages, m.session_id ≠ sid) ∧
      get_chat_messages db2 sid uid lim = .error 404 := by
  obtain ⟨s0, hs0, hid0, huid0⟩ := hex
  have hfilter : ¬ (db.chat_sessions.filter
      (fun s => s.id == sid && s.user_id == uid)).isEmpty := by
    rw [List.isEmpty_iff, List.filter_eq_nil_iff]
    intro hall
    exact hall s0 hs0 (by simp [hid0, huid0])
  refine ⟨{ db with
      chat_messages := db.chat_messages.filter (fun m => !(m.session_id == sid)),
      chat_sessions := db.chat_sessions.filter (fun s => !(s.id == sid && s.user_id == uid)) },
    ?_, ?_, ?_⟩
  · unfold delete_chat_session
    rw [if_neg hsid, if_neg hfilter]
  · intro m hm
    simp only [List.mem_filter] at hm
    have := hm.2
    simp at this
    exact this
  · unfold get_chat_messages
    rw [if_neg hsid, if_pos]
    rw [List.isEmpty_iff, List.filter_eq_nil_iff]
    intro s hsmem
    simp only [List.mem_filter] at hsmem
    have := hsmem.2
    simp at this
    intro hcontra
    rcases this with h | h
    · simp [h] at hcontra
    · simp [h] at hcontra

/-- `splitSub` always yields at least one piece. -/
theorem splitSub_ne_nil (sep s : Str) : splitSub sep s ≠ [] := by
  cases s with
  | nil => simp [splitSub]
  | cons c rest =>
    unfold splitSub
    split
    · simp
    · split <;> simp

/-- Scanning step of `splitSub` when the separator does not start here. -/
theorem splitSub_cons_not_pre {sep : Str} (c : Char) (rest : Str)
    (h : ¬ sep.isPrefixOf (c :: rest) = true) :
    splitSub sep (c :: rest) = List.modifyHead (fun x => c :: x) (splitSub sep rest) := by
  conv_lhs => rw [splitSub.eq_def]
  show (if _h : sep ≠ [] ∧ sep.isPrefixOf (c :: rest) = true then
      [] :: splitSub sep (List.drop sep.length (c :: rest))
    else match splitSub sep rest with
      | [] => [[c]]
      | x :: xs => (c :: x) :: xs) = _
  rw [dif_neg (fun hh => h hh.2)]
  cases hsp : splitSub sep rest with
  | nil => exact absurd hsp (splitSub_ne_nil sep rest)
  | cons x xs => simp

/-- `splitSub` cuts immediately when the string starts with the separator. -/
theorem splitSub_sep_append {sep : Str} (hsep : sep ≠ []) (B : Str) :
    splitSub sep (sep ++ B) = [] :: splitSub sep B := by
  have hpre : sep.isPrefixOf (sep ++ B) = true :=
    List.isPrefixOf_iff_prefix.mpr (List.prefix_append _ _)
  cases hs : sep with
  | nil => exact absurd hs hsep
  | cons a as =>
    subst hs
    rw [List.cons_append]
    conv_lhs => rw [splitSub.eq_def]
    show (if _h : (a :: as) ≠ [] ∧ (a :: as).isPrefixOf (a :: (as ++ B)) = true then
        [] :: splitSub (a :: as) (List.drop (a :: as).length (a :: (as ++ B)))
      else match splitSub (a :: as) (as ++ B) with
        | [] => [[a]]
        | x :: xs => (a :: x) :: xs) = _
    rw [dif_pos ⟨hsep, by rw [← List.cons_append]; exact hpre⟩]
    rw [show (List.drop (a :: as).length (a :: (as ++ B))) = B from by
      rw [← List.cons_append, List.drop_left]]

/-- A list no longer than `X` starts `X ++ B` exactly when it starts `X`. -/
theorem pre_append_iff {sep X : Str} (B : Str) (h : sep.length ≤ X.length) :
    sep <+: (X ++ B) ↔ sep <+: X := by
  constructor
  · intro hp
    rw [List.prefix_iff_eq_take] at hp ⊢
    rwa [List.take_append_of_le_length h] at hp
  · intro hp
    exact hp.trans (List.prefix_append X B)

/-- When the separator occurs nowhere before the marked position,
`splitSub` cuts exactly at the marker. -/
theorem splitSub_append_no_early {sep : Str} (hsep : sep ≠ []) :
    ∀ (A B : Str), (∀ n, n < A.length → ¬ sep <+: (A.drop n ++ (sep ++ B))) →
      splitSub sep (A ++ (sep ++ B)) = A :: splitSub sep B := by
  intro A
  induction A with
  | nil =>
    intro B _
    simpa using splitSub_sep_append hsep B
  | cons a A2 ih =>
    intro B h
    have h0 : ¬ sep.isPrefixOf ((a :: A2) ++ (sep ++ B)) = true := by
      intro hc
      exact h 0 (by simp) (by simpa using List.isPrefixOf_iff_prefix.mp hc)
    rw [List.cons_append]
    rw [splitSub_cons_not_pre a (A2 ++ (sep ++ B)) (by rwa [← List.cons_append])]
    rw [ih B (fun n hn => by simpa using h (n + 1) (by simpa using Nat.succ_lt_succ hn))]
    rw [List.modifyHead_cons]

/-- A string not containing the separator splits into a single piece. -/
theorem splitSub_single {sep : Str} (hsep : sep ≠ []) :
    ∀ B, hasSub sep B = false → splitSub sep B = [B] := by
  intro B
  induction B with
  | nil => intro _; rw [splitSub.eq_def]
  | cons c rest ih =>
    intro h
    simp only [hasSub, Bool.or_eq_false_iff] at h
    rw [splitSub_cons_not_pre c rest (by simp [h.1])]
    rw [ih h.2]
    rw [List.modifyHead_cons]

/-- An occurrence of `sep` in `X ++ Y` either lies in `Y` or begins inside
`X` (possibly running over into `Y`). -/
theorem hasSub_append_decomp {sep : Str} :
    ∀ (X Y : Str), hasSub sep (X ++ Y) = true →
      hasSub sep Y = true ∨ ∃ S, S <:+ X ∧ S ≠ [] ∧ sep <+: (S ++ Y) := by
  intro X
  induction X with
  | nil => intro Y h; left; simpa using h
  | cons x X2 ih =>
    intro Y h
    rw [List.cons_append] at h
    simp only [hasSub, Bool.or_eq_true] at h
    rcases h with h1 | h2
    · right
      refine ⟨x :: X2, List.suffix_refl _, by simp, ?_⟩
      rw [List.cons_append]
      exact List.isPrefixOf_iff_prefix.mp h1
    · rcases ih Y h2 with h | ⟨S, hS, hne, hp⟩
      · left; exact h
      · right; exact ⟨S, hS.trans (List.suffix_cons x X2), hne, hp⟩

/-- A prefix of a suffix is an occurrence. -/
theorem hasSub_of_pre_suffix {sep S : Str} :
    ∀ {Z : Str}, S <:+ Z → sep <+: S → hasSub sep Z = true := by
  intro Z
  induction Z with
  | nil =>
    intro hS hp
    have hS0 : S = [] := List.suffix_nil.mp hS
    subst hS0
    have hp0 : sep = [] := List.prefix_nil.mp hp
    subst hp0
    rfl
  | cons z Z2 ih =>
    intro hS hp
    rcases List.suffix_cons_iff.mp hS with h | h
    · subst h
      simp only [hasSub, Bool.or_eq_true]
      exact Or.inl (List.isPrefixOf_iff_prefix.mpr hp)
    · simp only [hasSub, Bool.or_eq_true]
      exact Or.inr (ih h hp)

/-- A string of the shape `A ++ sep ++ B` contains `sep`. -/
theorem hasSub_marker {sep : Str} (A B : Str) :
    hasSub sep (A ++ (sep ++ B)) = true :=
  hasSub_of_pre_suffix (List.suffix_append A (sep ++ B)) (List.prefix_append sep B)

/-- The hex digit of any nibble is one of the sixteen hex characters. -/
theorem hexDigit_mem (n : Nat) : hexDigit n ∈ hexChars := by
  have h : n % 16 < 16 := Nat.mod_lt _ (by norm_num)
  unfold hexDigit
  generalize n % 16 = m at h ⊢
  interval_cases m <;> decide

/-- Emitted hex digits are recognized by the decoder. -/
theorem isHexDigitB_hexDigit (n : Nat) : isHexDigitB (hexDigit n) = true := by
  have h : n % 16 < 16 := Nat.mod_lt _ (by norm_num)
  unfold hexDigit
  generalize n % 16 = m at h ⊢
  interval_cases m <;> decide

/-- Decoding inverts encoding on nibbles. -/
theorem hexVal_hexDigit {n : Nat} (h : n < 16) : hexVal (hexDigit n) = n := by
  unfold hexDigit
  rw [Nat.mod_eq_of_lt h]
  interval_cases n <;> decide

/-- Characters the quoter leaves unescaped are never the escape character. -/
theorem safe_not_percent {c : Char} (h : safeChar c = true) : ¬ (c = '%') := by
  intro hc
  subst hc
  exact absurd h (by decide)

/-- `unquoteL` copies a character that does not start an escape. -/
theorem unquoteL_cons_not_pct {c : Char} (hc : ¬ (c = '%')) (rest : Str) :
    unquoteL (c :: rest) = c :: unquoteL rest := by
  cases rest with
  | nil => simp [unquoteL]
  | cons d rest2 =>
    cases rest2 with
    | nil => simp [unquoteL]
    | cons e rest3 => simp [unquoteL, hc]

/-- Percent-decoding inverts percent-encoding on single-byte strings. -/
theorem unquote_quote : ∀ {p : Str}, (∀ c ∈ p, c.toNat < 128) → unquoteL (quoteL p) = p := by
  intro p
  induction p with
  | nil => intro _; simp [quoteL, unquoteL]
  | cons c p2 ih =>
    intro h
    have hc : c.toNat < 128 := h c (by simp)
    have h2 : ∀ x ∈ p2, x.toNat < 128 := fun x hx => h x (by simp [hx])
    by_cases hsafe : safeChar c = true
    · rw [show quoteL (c :: p2) = c :: quoteL p2 from by simp [quoteL, quoteChar, hsafe]]
      rw [unquoteL_cons_not_pct (safe_not_percent hsafe)]
      rw [ih h2]
    · rw [show quoteL (c :: p2) =
          '%' :: hexDigit (c.toNat / 16) :: hexDigit (c.toNat % 16) :: quoteL p2 from by
        simp [quoteL, quoteChar, hsafe]]
      rw [show unquoteL ('%' :: hexDigit (c.toNat / 16) :: hexDigit (c.toNat % 16) :: quoteL p2) =
          Char.ofNat (16 * hexVal (hexDigit (c.toNat / 16)) + hexVal (hexDigit (c.toNat % 16))) ::
            unquoteL (quoteL p2) from by
        simp [unquoteL, isHexDigitB_hexDigit]]
      rw [hexVal_hexDigit (by omega : c.toNat / 16 < 16)]
      rw [hexVal_hexDigit (Nat.mod_lt _ (by norm_num))]
      rw [show 16 * (c.toNat / 16) + c.toNat % 16 = c.toNat from Nat.div_add_mod _ 16]
      rw [Char.ofNat_toNat, ih h2]

/-- Every character of a percent-encoded string is a safe character, the
escape character, or a hex digit. -/
theorem mem_quoteL {c : Char} :
    ∀ {p : Str}, c ∈ quoteL p → safeChar c = true ∨ c = '%' ∨ c ∈ hexChars := by
  intro p
  induction p with
  | nil => intro h; simp [quoteL] at h
  | cons d p2 ih =>
    intro h
    rw [show quoteL (d :: p2) = quoteChar d ++ quoteL p2 from rfl] at h
    rcases List.mem_append.mp h with h | h
    · unfold quoteChar at h
      split at h
      · rename_i hsafe
        simp at h
        subst h
        exact Or.inl hsafe
      · simp at h
        rcases h with h | h | h
        · exact Or.inr (Or.inl h)
        · subst h; exact Or.inr (Or.inr (hexDigit_mem _))
        · subst h; exact Or.inr (Or.inr (hexDigit_mem _))
    · exact ih h

/-- No character of a percent-encoded string is a question mark. -/
theorem quoteL_no_qmark {p : Str} {c : Char} (h : c ∈ quoteL p) : ¬ (c = '?') := by
  intro hq
  subst hq
  rcases mem_quoteL h with h | h | h
  · exact absurd h (by decide)
  · exact absurd h (by decide)
  · exact absurd h (by decide)

/-- A string of good characters that starts a percent-encoded string also
starts the original string. -/
theorem quote_pre_good :
    ∀ {sep q : Str}, (∀ c ∈ sep, goodChar c) → sep <+: quoteL q → sep <+: q := by
  intro sep
  induction sep with
  | nil => intro q _ _; exact List.nil_prefix
  | cons s sep2 ih =>
    intro q hgood hp
    cases q with
    | nil =>
      rw [show quoteL [] = ([] : Str) from rfl, List.prefix_nil] at hp
      cases hp
    | cons d q2 =>
      rw [show quoteL (d :: q2) = quoteChar d ++ quoteL q2 from rfl] at hp
      by_cases hsafe : safeChar d = true
      · rw [show quoteChar d = [d] from by simp [quoteChar, hsafe], List.singleton_append] at hp
        obtain ⟨hsd, hp2⟩ := List.cons_prefix_cons.mp hp
        subst hsd
        exact List.cons_prefix_cons.mpr
          ⟨rfl, ih (fun c hcmem => hgood c (by simp [hcmem])) hp2⟩
      · rw [show quoteChar d = ['%', hexDigit (d.toNat / 16), hexDigit (d.toNat % 16)] from by
          simp [quoteChar, hsafe], List.cons_append] at hp
        obtain ⟨hsd, _⟩ := List.cons_prefix_cons.mp hp
        exact absurd hsd (hgood s (by simp)).2.1

/-- Two cons lists with different heads: no prefix relation. -/
theorem isPrefixOf_cons_neq {a b : Char} {l1 l2 : Str} (h : ¬ (a = b)) :
    (a :: l1).isPrefixOf (b :: l2) = false := by
  rw [Bool.eq_false_iff]
  intro hc
  exact h (List.cons_prefix_cons.mp (List.isPrefixOf_iff_prefix.mp hc)).1

/-- An occurrence of a good-character string inside a percent-encoded
string comes from an occurrence in the original string. -/
theorem hasSub_quote_good {sep : Str} (hgood : ∀ c ∈ sep, goodChar c) (hsep : sep ≠ []) :
    ∀ {p : Str}, hasSub sep (quoteL p) = true → hasSub sep p = true := by
  intro p
  induction p with
  | nil =>
    intro h
    rw [show quoteL [] = ([] : Str) from rfl] at h
    cases hs : sep with
    | nil => exact absurd hs hsep
    | cons a as =>
      subst hs
      rw [show hasSub (a :: as) ([] : Str) = (a :: as).isPrefixOf [] from rfl] at h
      rw [show (a :: as).isPrefixOf ([] : Str) = false from by
        rw [Bool.eq_false_iff]
        intro hc
        cases List.prefix_nil.mp (List.isPrefixOf_iff_prefix.mp hc)] at h
      cases h
  | cons c p2 ih =>
    intro h
    by_cases hsafe : safeChar c = true
    · rw [show quoteL (c :: p2) = c :: quoteL p2 from by simp [quoteL, quoteChar, hsafe]] at h
      simp only [hasSub, Bool.or_eq_true] at h
      rcases h with h | h
      · have hpre : sep <+: (c :: p2) := by
          apply quote_pre_good hgood
          rw [show quoteL (c :: p2) = c :: quoteL p2 from by simp [quoteL, quoteChar, hsafe]]
          exact List.isPrefixOf_iff_prefix.mp h
        simp only [hasSub, Bool.or_eq_true]
        exact Or.inl (List.isPrefixOf_iff_prefix.mpr hpre)
      · simp only [hasSub, Bool.or_eq_true]
        exact Or.inr (ih h)
    · rw [show quoteL (c :: p2) =
          '%' :: hexDigit (c.toNat / 16) :: hexDigit (c.toNat % 16) :: quoteL p2 from by
        simp [quoteL, quoteChar, hsafe]] at h
      cases hs : sep with
      | nil => exact absurd hs hsep
      | cons s sep2 =>
        subst hs
        obtain ⟨hsgood1, hsgood2, hsgood3⟩ := hgood s (by simp)
        simp only [hasSub, Bool.or_eq_true] at h
        rcases h with h | h
        · rw [isPrefixOf_cons_neq hsgood2] at h; cases h
        rcases h with h | h
        · rw [isPrefixOf_cons_neq (fun he => hsgood3 (by rw [he]; exact hexDigit_mem _))] at h
          cases h
        rcases h with h | h
        · rw [isPrefixOf_cons_neq (fun he => hsgood3 (by rw [he]; exact hexDigit_mem _))] at h
          cases h
        · simp only [hasSub, Bool.or_eq_true]
          exact Or.inr (ih h)

/-- `takeWhile` collects exactly the block before the first failing element. -/
theorem takeWhile_append_stop {P : Char → Bool} :
    ∀ (X : Str) (y : Char) (T : Str), (∀ x ∈ X, P x = true) → P y = false →
      List.takeWhile P (X ++ y :: T) = X := by
  intro X y T
  induction X with
  | nil => intro _ hy; simp [List.takeWhile_cons, hy]
  | cons x X2 ih =>
    intro hX hy
    rw [List.cons_append, List.takeWhile_cons, hX x (by simp)]
    simp only [ite_true]
    rw [ih (fun z hz => hX z (by simp [hz])) hy]

/-- The percent-encoded path followed by the query separator and a clean
query string contains no occurrence of a good-character marker that the
original path does not contain. -/
theorem hasSub_quote_tail_false {sep : Str} (hgood : ∀ c ∈ sep, goodChar c) (hsep : sep ≠ [])
    (hqm : '?' ∉ sep) {p tok : Str} (hp : hasSub sep p = false) (htok : hasSub sep tok = false) :
    hasSub sep (quoteL p ++ '?' :: tok) = false := by
  by_contra hcon
  rw [Bool.not_eq_false] at hcon
  rcases hasSub_append_decomp (quoteL p) ('?' :: tok) hcon with h | ⟨S, hSsuf, hSne, hpre⟩
  · simp only [hasSub, Bool.or_eq_true] at h
    rcases h with h | h
    · cases hs : sep with
      | nil => exact absurd hs hsep
      | cons s sep2 =>
        subst hs
        have := (List.cons_prefix_cons.mp (List.isPrefixOf_iff_prefix.mp h)).1
        exact hqm (this ▸ (by simp : s ∈ s :: sep2))
    · rw [htok] at h; cases h
  · rcases le_or_lt sep.length S.length with hle | hlt
    · have hpS : sep <+: S := (pre_append_iff _ hle).mp hpre
      have hq : hasSub sep (quoteL p) = true := hasSub_of_pre_suffix hSsuf hpS
      rw [hasSub_quote_good hgood hsep hq] at hp
      cases hp
    · have h1 : S <+: sep := by
        rw [List.prefix_iff_eq_take]
        have heq := List.prefix_iff_eq_take.mp hpre
        calc S = (S ++ ('?' :: tok)).take S.length := by
              rw [List.take_append_of_le_length (le_refl _), List.take_length]
          _ = ((S ++ ('?' :: tok)).take sep.length).take S.length := by
              rw [List.take_take, min_eq_left (le_of_lt hlt)]
          _ = sep.take S.length := by rw [← heq]
      obtain ⟨sep2, hsep2⟩ := h1
      have hsep2ne : sep2 ≠ [] := by
        intro h0
        rw [h0, List.append_nil] at hsep2
        rw [hsep2] at hlt
        exact absurd hlt (lt_irrefl _)
      have h2 : sep2 <+: ('?' :: tok) := by
        obtain ⟨t, ht⟩ := hpre
        rw [← hsep2, List.append_assoc] at ht
        exact ⟨t, List.append_cancel_left ht⟩
      cases hs2 : sep2 with
      | nil => exact absurd hs2 hsep2ne
      | cons u us =>
        subst hs2
        have hu : u = '?' := (List.cons_prefix_cons.mp h2).1
        apply hqm
        rw [← hsep2, hu]
        exact List.mem_append.mpr (Or.inr (by simp))

/-- Positionwise absence of the separator over `A` transfers to the full
string `A ++ sep ++ B`. -/
theorem no_early_of_isPrefixOf_false {sep A : Str}
    (h : ∀ n, n < A.length → sep.isPrefixOf (A.drop n ++ sep) = false) (B : Str) :
    ∀ n, n < A.length → ¬ sep <+: (A.drop n ++ (sep ++ B)) := by
  intro n hn hcon
  rw [← List.append_assoc] at hcon
  have h2 : sep <+: (A.drop n ++ sep) := (pre_append_iff _ (by simp)).mp hcon
  have h3 := h n hn
  rw [List.isPrefixOf_iff_prefix.mpr h2] at h3
  cases h3

/-- C4 counterexample: the round trip is not lossless for every storage
path.  For the path `pdfs/object/sign/x.pdf` — whose text contains the
signed-URL marker — building the signed-shape URL and running the
resolver's extraction yields `pdfs`, not the original path, because the
split cuts at the first marker occurrence inside the encoded path. -/
theorem c4_counterexample_path_containing_marker :
    parsePublicUrl (buildSignedUrl ("https://example.supabase.co/storage/v1".toList)
        ("pdfs/object/sign/x.pdf".toList) ("token=abc".toList)) ≠
      ("pdfs/object/sign/x.pdf".toList) := by
  have hsep : signMarker ≠ [] := by decide
  have e1 : buildSignedUrl ("https://example.supabase.co/storage/v1".toList)
      ("pdfs/object/sign/x.pdf".toList) ("token=abc".toList) =
      ("https://example.supabase.co/storage/v1".toList) ++
        (signMarker ++ (("pdfs".toList) ++ (signMarker ++ ("x.pdf?token=abc".toList)))) := by
    decide
  have h1 : splitSub signMarker (("https://example.supabase.co/storage/v1".toList) ++
      (signMarker ++ (("pdfs".toList) ++ (signMarker ++ ("x.pdf?token=abc".toList))))) =
      ("https://example.supabase.co/storage/v1".toList) :: ("pdfs".toList) ::
        [("x.pdf?token=abc".toList)] := by
    rw [splitSub_append_no_early hsep _ _ (no_early_of_isPrefixOf_false (by decide) _)]
    rw [splitSub_append_no_early hsep _ _ (no_early_of_isPrefixOf_false (by decide) _)]
    rw [splitSub_single hsep _ (by decide)]
  have h2 : unquoteL ("pdfs".toList) = ("pdfs".toList) := by
    have hq : quoteL ("pdfs".toList) = ("pdfs".toList) := by decide
    conv_lhs => rw [← hq]
    exact unquote_quote (by decide)
  rw [e1]
  unfold parsePublicUrl
  rw [if_pos (by decide), h1]
  show unquoteL (("pdfs".toList).takeWhile (fun c => c != '?')) ≠ _
  rw [show ("pdfs".toList).takeWhile (fun c => c != '?') = ("pdfs".toList) from by decide]
  rw [h2]
  decide

/-- Encode-then-extract round trip, general form shared by several
developments below. -/
theorem signed_url_roundtrip_aux (base p tok : Str)
    (hbase : ∀ n, n < base.length → signMarker.isPrefixOf (base.drop n ++ signMarker) = false)
    (hp : hasSub signMarker p = false)
    (hascii : ∀ c ∈ p, c.toNat < 128)
    (htok : hasSub signMarker tok = false) :
    parsePublicUrl (buildSignedUrl base p tok) = p := by
  have hsep : signMarker ≠ [] := by decide
  have hgood : ∀ c ∈ signMarker, goodChar c := by decide
  have hqm : ('?' : Char) ∉ signMarker := by decide
  have hBno : hasSub signMarker (quoteL p ++ '?' :: tok) = false :=
    hasSub_quote_tail_false hgood hsep hqm hp htok
  have hsplit : splitSub signMarker (base ++ (signMarker ++ (quoteL p ++ '?' :: tok))) =
      base :: splitSub signMarker (quoteL p ++ '?' :: tok) :=
    splitSub_append_no_early hsep _ _ (no_early_of_isPrefixOf_false hbase _)
  have hsingle : splitSub signMarker (quoteL p ++ '?' :: tok) = [quoteL p ++ '?' :: tok] :=
    splitSub_single hsep _ hBno
  have hmark : hasSub signMarker (base ++ (signMarker ++ (quoteL p ++ '?' :: tok))) = true :=
    hasSub_marker base _
  have hurl : buildSignedUrl base p tok = base ++ (signMarker ++ (quoteL p ++ '?' :: tok)) := by
    unfold buildSignedUrl
    rw [List.append_assoc, List.append_assoc]
  rw [hurl]
  unfold parsePublicUrl
  rw [if_pos hmark, hsplit, hsingle]
  show unquoteL ((quoteL p ++ '?' :: tok).takeWhile (fun c => c != '?')) = p
  rw [takeWhile_append_stop (quoteL p) '?' tok
    (fun x hx => bne_iff_ne.mpr (quoteL_no_qmark hx)) (by decide)]
  exact unquote_quote hascii

/-- C4 (amended): encode-then-extract is a lossless round trip for every
single-byte storage path that does not itself contain the marker
`/object/sign/`, under any base URL with no marker occurrence before the
real one and any query string free of the marker. -/
theorem c4_amended_signed_url_roundtrip (base p tok : Str)
    (hbase : ∀ n, n < base.length → signMarker.isPrefixOf (base.drop n ++ signMarker) = false)
    (hp : hasSub signMarker p = false)
    (hascii : ∀ c ∈ p, c.toNat < 128)
    (htok : hasSub signMarker tok = false) :
    parsePublicUrl (buildSignedUrl base p tok) = p :=
  signed_url_roundtrip_aux base p tok hbase hp hascii htok

/-- Witness for C4: the concrete path `pdfs/u1/a b.pdf` (with a space, so
percent-encoding is exercised) survives the round trip. -/
theorem c4_amended_signed_url_roundtrip_witness :
    parsePublicUrl (buildSignedUrl ("https://example.supabase.co/storage/v1".toList)
        ("pdfs/u1/a b.pdf".toList) ("token=abc".toList)) = ("pdfs/u1/a b.pdf".toList) :=
  c4_amended_signed_url_roundtrip ("https://example.supabase.co/storage/v1".toList)
    ("pdfs/u1/a b.pdf".toList) ("token=abc".toList)
    (by decide) (by decide) (by decide) (by decide)

/-- C1 counterexample: on the CSV variant a failure to mint a fresh signed
URL does not return the detail with an empty URL — the request fails
outright with a 500.  Concrete input: a `csv_datasets` row with a stored
path, owned by the caller, and a blob store that cannot sign it. -/
theorem c1_counterexample_csv_failure_500 :
    (get_csv (fun _ _ => none) ⟨[], [⟨['c'], ['u'], ['f'], ['p'], [], ['s']⟩], [], []⟩
        ['c'] ['u']).1 = Except.error 500 ∧
    ∀ r : CsvRecord, (get_csv (fun _ _ => none)
        ⟨[], [⟨['c'], ['u'], ['f'], ['p'], [], ['s']⟩], [], []⟩ ['c'] ['u']).1 ≠
      Except.ok r := by
  refine ⟨by decide, ?_⟩
  intro r h
  rw [show (get_csv (fun _ _ => none) ⟨[], [⟨['c'], ['u'], ['f'], ['p'], [], ['s']⟩], [], []⟩
      ['c'] ['u']).1 = Except.error 500 from by decide] at h
  cases h

/-- C1 (amended): the PDF variant behaves as claimed — when the record is
found under (id, owner) but no path can be resolved or the fresh signed URL
cannot be minted, `get_pdf` still returns the detail with an explicitly
empty access-URL field (never the cached value) and leaves the database
untouched; the CSV variant instead fails the request with a 500 in both
situations. -/
theorem c1_amended_get_source_url_failure (sign : Sign) (db : DB) (pid cid uid : Str) :
    (∀ rec rest, pid ≠ [] →
        db.pdf_files.filter (fun r => r.id == pid && r.user_id == uid) = rec :: rest →
        (resolvePdfPath sign uid rec = [] ∨ sign (resolvePdfPath sign uid rec) 3600 = none) →
        get_pdf sign db pid uid = (.ok { rec with public_url := [] }, db)) ∧
    (∀ rec rest, cid ≠ [] →
        db.csv_datasets.filter (fun r => r.id == cid && r.user_id == uid) = rec :: rest →
        (rec.supabase_path = [] ∨ sign rec.supabase_path 3600 = none) →
        get_csv sign db cid uid = (.error 500, db)) := by
  constructor
  · intro rec rest hpid hfilter hfail
    unfold get_pdf
    rw [if_neg hpid, hfilter]
    change (if resolvePdfPath sign uid rec ≠ [] then _ else _) = _
    by_cases hfp : resolvePdfPath sign uid rec = []
    · rw [if_neg (not_not_intro hfp)]
    · rw [if_pos hfp]
      rcases hfail with h | h
      · exact absurd h hfp
      · rw [show generate_pdf_signed_url sign (resolvePdfPath sign uid rec) 3600 =
            none from h]
  · intro rec rest hcid hfilter hfail
    unfold get_csv
    rw [if_neg hcid, hfilter]
    change (if rec.supabase_path ≠ [] then _ else _) = _
    by_cases hfp : rec.supabase_path = []
    · rw [if_neg (not_not_intro hfp)]
    · rw [if_pos hfp]
      rcases hfail with h | h
      · exact absurd h hfp
      · rw [show generate_csv_signed_url sign rec.supabase_path 3600 = none from h]

/-- Witness for C1 (amended): a PDF record with no path, no cached URL and
no filename resolves to nothing and is returned with an empty URL; a CSV
record whose path cannot be signed produces a 500. -/
theorem c1_amended_get_source_url_failure_witness :
    (get_pdf (fun _ _ => none) ⟨[⟨['i'], ['u'], [], [], [], ['s']⟩], [], [], []⟩ ['i'] ['u'] =
      (.ok ⟨['i'], ['u'], [], [], [], ['s']⟩, ⟨[⟨['i'], ['u'], [], [], [], ['s']⟩], [], [], []⟩)) ∧
    (get_csv (fun _ _ => none) ⟨[], [⟨['c'], ['u'], ['f'], ['p'], [], ['s']⟩], [], []⟩ ['c'] ['u'] =
      (.error 500, ⟨[], [⟨['c'], ['u'], ['f'], ['p'], [], ['s']⟩], [], []⟩)) :=
  ⟨(c1_amended_get_source_url_failure (fun _ _ => none)
      ⟨[⟨['i'], ['u'], [], [], [], ['s']⟩], [], [], []⟩ ['i'] ['c'] ['u']).1
      ⟨['i'], ['u'], [], [], [], ['s']⟩ [] (by decide) (by decide) (Or.inl (by decide)),
   (c1_amended_get_source_url_failure (fun _ _ => none)
      ⟨[], [⟨['c'], ['u'], ['f'], ['p'], [], ['s']⟩], [], []⟩ ['i'] ['c'] ['u']).2
      ⟨['c'], ['u'], ['f'], ['p'], [], ['s']⟩ [] (by decide) (by decide) (Or.inr rfl)⟩

/-- Two members of an id-unique list with the same id are the same row. -/
theorem pairwise_key_unique {α : Type} {key : α → Str} {l : List α}
    (h : l.Pairwise (fun a b => key a ≠ key b)) {a b : α} (ha : a ∈ l) (hb : b ∈ l)
    (hk : key a = key b) : a = b := by
  by_contra hne
  have hsymm : Symmetric (fun a b : α => key a ≠ key b) :=
    fun x y hxy he => hxy he.symm
  exact List.Pairwise.forall hsymm h ha hb hne hk

/-- C2 counterexample: the write-back performed by `get_pdf` filters by id
only, so with two rows sharing an id the row owned by a different user is
also mutated: user `u`'s read refreshes the URL of user `v`'s record. -/
theorem c2_counterexample_cross_owner_update :
    ((get_pdf (fun _ _ => some ['U'])
        ⟨[⟨['i'], ['u'], ['f'], ['p'], [], ['s']⟩, ⟨['i'], ['v'], ['f'], ['q'], ['w'], ['s']⟩],
          [], [], []⟩ ['i'] ['u']).2.pdf_files =
      [⟨['i'], ['u'], ['f'], ['p'], ['U'], ['s']⟩, ⟨['i'], ['v'], ['f'], ['q'], ['U'], ['s']⟩]) ∧
    (⟨['i'], ['v'], ['f'], ['q'], ['w'], ['s']⟩ : PdfRecord).user_id ≠ ['u'] ∧
    (⟨['i'], ['v'], ['f'], ['q'], ['w'], ['s']⟩ : PdfRecord) ∉
      (get_pdf (fun _ _ => some ['U'])
        ⟨[⟨['i'], ['u'], ['f'], ['p'], [], ['s']⟩, ⟨['i'], ['v'], ['f'], ['q'], ['w'], ['s']⟩],
          [], [], []⟩ ['i'] ['u']).2.pdf_files := by decide

/-- C2 (amended): all reads are scoped by (id, owner) — a successful
`getSource` implies a row with both the requested id and the calling owner
exists — but the write-back updates filter by id alone; under the
primary-key assumption that ids are unique within a table, the write-back
still cannot change any record belonging to a different owner. -/
theorem c2_amended_reads_scoped_writes_by_id (sign : Sign) (db : DB) (pid cid uid : Str) :
    (∀ rec, (get_pdf sign db pid uid).1 = .ok rec →
        ∃ r ∈ db.pdf_files, r.id = pid ∧ r.user_id = uid) ∧
    (∀ rec, (get_csv sign db cid uid).1 = .ok rec →
        ∃ r ∈ db.csv_datasets, r.id = cid ∧ r.user_id = uid) ∧
    (db.pdf_files.Pairwise (fun a b => a.id ≠ b.id) →
        ∀ r ∈ db.pdf_files, r.user_id ≠ uid → r ∈ (get_pdf sign db pid uid).2.pdf_files) ∧
    (db.csv_datasets.Pairwise (fun a b => a.id ≠ b.id) →
        ∀ r ∈ db.csv_datasets, r.user_id ≠ uid → r ∈ (get_csv sign db cid uid).2.csv_datasets) := by
  refine ⟨?_, ?_, ?_, ?_⟩
  · intro rec h
    by_cases hpid : pid = []
    · unfold get_pdf at h
      rw [if_pos hpid] at h
      cases h
    · unfold get_pdf at h
      rw [if_neg hpid] at h
      cases hfilter : db.pdf_files.filter (fun r => r.id == pid && r.user_id == uid) with
      | nil => rw [hfilter] at h; cases h
      | cons r0 rest =>
        have hr0 : r0 ∈ db.pdf_files.filter (fun r => r.id == pid && r.user_id == uid) := by
          rw [hfilter]; simp
        have hm := List.mem_filter.mp hr0
        have hconds := hm.2
        simp only [Bool.and_eq_true, beq_iff_eq] at hconds
        exact ⟨r0, hm.1, hconds.1, hconds.2⟩
  · intro rec h
    by_cases hcid : cid = []
    · unfold get_csv at h
      rw [if_pos hcid] at h
      cases h
    · unfold get_csv at h
      rw [if_neg hcid] at h
      cases hfilter : db.csv_datasets.filter (fun r => r.id == cid && r.user_id == uid) with
      | nil => rw [hfilter] at h; cases h
      | cons r0 rest =>
        have hr0 : r0 ∈ db.csv_datasets.filter (fun r => r.id == cid && r.user_id == uid) := by
          rw [hfilter]; simp
        have hm := List.mem_filter.mp hr0
        have hconds := hm.2
        simp only [Bool.and_eq_true, beq_iff_eq] at hconds
        exact ⟨r0, hm.1, hconds.1, hconds.2⟩
  · intro hpw r hr hruid
    by_cases hpid : pid = []
    · unfold get_pdf
      rw [if_pos hpid]
      exact hr
    · unfold get_pdf
      rw [if_neg hpid]
      cases hfilter : db.pdf_files.filter (fun r => r.id == pid && r.user_id == uid) with
      | nil => exact hr
      | cons rec0 rest =>
        have hrec0 : rec0 ∈ db.pdf_files.filter (fun r => r.id == pid && r.user_id == uid) := by
          rw [hfilter]; simp
        have hm0 := List.mem_filter.mp hrec0
        have hconds0 := hm0.2
        simp only [Bool.and_eq_true, beq_iff_eq] at hconds0
        have hne : ¬ ((r.id == pid) = true) := by
          simp only [beq_iff_eq]
          intro hid
          have : r = rec0 := pairwise_key_unique hpw hr hm0.1 (by rw [hid, hconds0.1])
          rw [this] at hruid
          exact hruid hconds0.2
        change r ∈ (if resolvePdfPath sign uid rec0 ≠ [] then _ else _ :
          Except Nat PdfRecord × DB).2.pdf_files
        by_cases hfp : resolvePdfPath sign uid rec0 = []
        · rw [if_neg (not_not_intro hfp)]
          exact hr
        · rw [if_pos hfp]
          cases hsig : generate_pdf_signed_url sign (resolvePdfPath sign uid rec0) 3600 with
          | none => exact hr
          | some fresh =>
            refine List.mem_map.mpr ⟨r, hr, ?_⟩
            rw [if_neg hne]
  · intro hpw r hr hruid
    by_cases hcid : cid = []
    · unfold get_csv
      rw [if_pos hcid]
      exact hr
    · unfold get_csv
      rw [if_neg hcid]
      cases hfilter : db.csv_datasets.filter (fun r => r.id == cid && r.user_id == uid) with
      | nil => exact hr
      | cons rec0 rest =>
        have hrec0 : rec0 ∈ db.csv_datasets.filter (fun r => r.id == cid && r.user_id == uid) := by
          rw [hfilter]; simp
        have hm0 := List.mem_filter.mp hrec0
        have hconds0 := hm0.2
        simp only [Bool.and_eq_true, beq_iff_eq] at hconds0
        have hne : ¬ ((r.id == cid) = true) := by
          simp only [beq_iff_eq]
          intro hid
          have : r = rec0 := pairwise_key_unique hpw hr hm0.1 (by rw [hid, hconds0.1])
          rw [this] at hruid
          exact hruid hconds0.2
        change r ∈ (if rec0.supabase_path ≠ [] then _ else _ :
          Except Nat CsvRecord × DB).2.csv_datasets
        by_cases hfp : rec0.supabase_path = []
        · rw [if_neg (not_not_intro hfp)]
          exact hr
        · rw [if_pos hfp]
          cases hsig : generate_csv_signed_url sign rec0.supabase_path 3600 with
          | none => exact hr
          | some fresh =>
            refine List.mem_map.mpr ⟨r, hr, ?_⟩
            rw [if_neg hne]

/-- Witness for C2 (amended): with distinct ids, a read by `u` leaves `v`'s
records in both tables untouched, and a successful read implies an owned
row exists. -/
theorem c2_amended_reads_scoped_writes_by_id_witness :
    (∃ r ∈ ([⟨['i'], ['u'], ['f'], ['p'], [], ['s']⟩,
        ⟨['j'], ['v'], ['f'], ['q'], ['w'], ['s']⟩] : List PdfRecord),
      r.id = ['i'] ∧ r.user_id = ['u']) ∧
    ((⟨['j'], ['v'], ['f'], ['q'], ['w'], ['s']⟩ : PdfRecord) ∈
      (get_pdf (fun _ _ => some ['U'])
        ⟨[⟨['i'], ['u'], ['f'], ['p'], [], ['s']⟩, ⟨['j'], ['v'], ['f'], ['q'], ['w'], ['s']⟩],
          [⟨['c'], ['v'], ['f'], ['q'], [], ['s']⟩], [], []⟩ ['i'] ['u']).2.pdf_files) ∧
    ((⟨['c'], ['v'], ['f'], ['q'], [], ['s']⟩ : CsvRecord) ∈
      (get_csv (fun _ _ => some ['U'])
        ⟨[⟨['i'], ['u'], ['f'], ['p'], [], ['s']⟩, ⟨['j'], ['v'], ['f'], ['q'], ['w'], ['s']⟩],
          [⟨['c'], ['v'], ['f'], ['q'], [], ['s']⟩], [], []⟩ ['i'] ['u']).2.csv_datasets) :=
  ⟨(c2_amended_reads_scoped_writes_by_id (fun _ _ => some ['U'])
      ⟨[⟨['i'], ['u'], ['f'], ['p'], [], ['s']⟩, ⟨['j'], ['v'], ['f'], ['q'], ['w'], ['s']⟩],
        [⟨['c'], ['v'], ['f'], ['q'], [], ['s']⟩], [], []⟩ ['i'] ['c'] ['u']).1
      ⟨['i'], ['u'], ['f'], ['p'], ['U'], ['s']⟩ (by decide),
   (c2_amended_reads_scoped_writes_by_id (fun _ _ => some ['U'])
      ⟨[⟨['i'], ['u'], ['f'], ['p'], [], ['s']⟩, ⟨['j'], ['v'], ['f'], ['q'], ['w'], ['s']⟩],
        [⟨['c'], ['v'], ['f'], ['q'], [], ['s']⟩], [], []⟩ ['i'] ['c'] ['u']).2.2.1
      (by decide) ⟨['j'], ['v'], ['f'], ['q'], ['w'], ['s']⟩ (by decide) (by decide),
   (c2_amended_reads_scoped_writes_by_id (fun _ _ => some ['U'])
      ⟨[⟨['i'], ['u'], ['f'], ['p'], [], ['s']⟩, ⟨['j'], ['v'], ['f'], ['q'], ['w'], ['s']⟩],
        [⟨['c'], ['v'], ['f'], ['q'], [], ['s']⟩], [], []⟩ ['i'] ['c'] ['u']).2.2.2
      (by decide) ⟨['c'], ['v'], ['f'], ['q'], [], ['s']⟩ (by decide) (by decide)⟩

/-- Parsing an absent cached URL yields no path. -/
theorem parsePublicUrl_nil : parsePublicUrl [] = [] := rfl

/-- If every candidate probe fails, the probing loop yields no path. -/
theorem firstProbe_none (sign : Sign) :
    ∀ cs, (∀ c ∈ cs, sign c 60 = none) → firstProbe sign cs = [] := by
  intro cs
  induction cs with
  | nil => intro _; rfl
  | cons c cs2 ih =>
    intro h
    simp only [firstProbe, generate_pdf_signed_url, h c (by simp), Option.isSome_none,
      Bool.false_eq_true, if_false]
    exact ih (fun d hd => h d (by simp [hd]))

/-- C5: the resolver tries its strategies strictly in order with first
success winning.  A present storage reference is used directly, with the
result independent of the probing oracle and of the cached URL and
filename; URL parsing is used exactly when the storage reference is absent
and parsing succeeds, again independently of the probing oracle; candidate
probing runs only when both earlier strategies fail and the filename is
truthy, taking the first candidate the oracle signs; when everything
fails no path is fabricated and `get_pdf` reports an empty access URL. -/
theorem c5_resolver_strategy_order (sign sign2 : Sign) (uid : Str) (rec : PdfRecord) :
    (rec.supabase_path ≠ [] →
        resolvePdfPath sign uid rec = rec.supabase_path ∧
        (∀ u fn, resolvePdfPath sign2 uid
            { rec with public_url := u, filename := fn } = rec.supabase_path)) ∧
    (rec.supabase_path = [] → parsePublicUrl rec.public_url ≠ [] →
        resolvePdfPath sign uid rec = parsePublicUrl rec.public_url ∧
        resolvePdfPath sign2 uid rec = resolvePdfPath sign uid rec) ∧
    (rec.supabase_path = [] → parsePublicUrl rec.public_url = [] → rec.filename ≠ [] →
        resolvePdfPath sign uid rec = firstProbe sign (pdfCandidatePaths uid rec.filename)) ∧
    (rec.supabase_path = [] → parsePublicUrl rec.public_url = [] →
        (∀ c ∈ pdfCandidatePaths uid rec.filename, sign c 60 = none) →
        resolvePdfPath sign uid rec = []) ∧
    (∀ db pid rest, pid ≠ [] →
        db.pdf_files.filter (fun r => r.id == pid && r.user_id == uid) = rec :: rest →
        resolvePdfPath sign uid rec = [] →
        (get_pdf sign db pid uid).1 = .ok { rec with public_url := [] }) := by
  refine ⟨?_, ?_, ?_, ?_, ?_⟩
  · intro hsp
    constructor
    · simp [resolvePdfPath, hsp]
    · intro u fn
      simp [resolvePdfPath, hsp]
  · intro hsp hpu
    have hpub : rec.public_url ≠ [] := by
      intro h0
      rw [h0, parsePublicUrl_nil] at hpu
      exact hpu rfl
    constructor <;> simp [resolvePdfPath, hsp, hpub, hpu]
  · intro hsp hpu hfn
    by_cases hpub : rec.public_url = [] <;> simp [resolvePdfPath, hsp, hpu, hfn, hpub]
  · intro hsp hpu hall
    by_cases hfn : rec.filename = [] <;> by_cases hpub : rec.public_url = [] <;>
      simp [resolvePdfPath, hsp, hpu, hfn, hpub, firstProbe_none sign _ hall]
  · intro db pid rest hpid hfilter hres
    unfold get_pdf
    rw [if_neg hpid, hfilter]
    change ((if resolvePdfPath sign uid rec ≠ [] then _ else _ :
      Except Nat PdfRecord × DB)).1 = _
    rw [if_neg (not_not_intro hres)]

/-- Witness for C5: each strategy exercised at a concrete record — direct
storage reference; parsing of a signed-shape cached URL; probing with a
signing oracle; total failure reported as an empty URL by `get_pdf`. -/
theorem c5_resolver_strategy_order_witness :
    (resolvePdfPath (fun _ _ => none) ['u'] ⟨['i'], ['u'], ['f'], ['p'], ['w'], ['s']⟩ = ['p']) ∧
    (resolvePdfPath (fun _ _ => none) ['u']
        ⟨['i'], ['u'], ['f'], [],
          buildSignedUrl ("https://example.supabase.co/storage/v1".toList)
            ("pdfs/u/f.pdf".toList) ("token=t".toList), ['s']⟩ = ("pdfs/u/f.pdf".toList)) ∧
    (resolvePdfPath (fun _ _ => some ['U']) ['u']
        ⟨['i'], ['u'], ("f.pdf".toList), [], [], ['s']⟩ =
      firstProbe (fun _ _ => some ['U']) (pdfCandidatePaths ['u'] ("f.pdf".toList))) ∧
    (resolvePdfPath (fun _ _ => none) ['u']
        ⟨['i'], ['u'], ("f.pdf".toList), [], [], ['s']⟩ = []) ∧
    ((get_pdf (fun _ _ => none)
        ⟨[⟨['i'], ['u'], ("f.pdf".toList), [], [], ['s']⟩], [], [], []⟩ ['i'] ['u']).1 =
      .ok ⟨['i'], ['u'], ("f.pdf".toList), [], [], ['s']⟩) := by
  have hparse : parsePublicUrl (buildSignedUrl ("https://example.supabase.co/storage/v1".toList)
      ("pdfs/u/f.pdf".toList) ("token=t".toList)) = ("pdfs/u/f.pdf".toList) :=
    signed_url_roundtrip_aux _ _ _ (by decide) (by decide) (by decide) (by decide)
  refine ⟨?_, ?_, ?_, ?_, ?_⟩
  · exact ((c5_resolver_strategy_order (fun _ _ => none) (fun _ _ => none) ['u']
      ⟨['i'], ['u'], ['f'], ['p'], ['w'], ['s']⟩).1 (by decide)).1
  · exact (((c5_resolver_strategy_order (fun _ _ => none) (fun _ _ => none) ['u']
      ⟨['i'], ['u'], ['f'], [],
        buildSignedUrl ("https://example.supabase.co/storage/v1".toList)
          ("pdfs/u/f.pdf".toList) ("token=t".toList), ['s']⟩).2.1 rfl
      (by rw [hparse]; decide)).1).trans hparse
  · exact (c5_resolver_strategy_order (fun _ _ => some ['U']) (fun _ _ => some ['U']) ['u']
      ⟨['i'], ['u'], ("f.pdf".toList), [], [], ['s']⟩).2.2.1 rfl parsePublicUrl_nil (by decide)
  · exact (c5_resolver_strategy_order (fun _ _ => none) (fun _ _ => none) ['u']
      ⟨['i'], ['u'], ("f.pdf".toList), [], [], ['s']⟩).2.2.2.1 rfl parsePublicUrl_nil
      (fun c _ => rfl)
  · exact (c5_resolver_strategy_order (fun _ _ => none) (fun _ _ => none) ['u']
      ⟨['i'], ['u'], ("f.pdf".toList), [], [], ['s']⟩).2.2.2.2
      ⟨[⟨['i'], ['u'], ("f.pdf".toList), [], [], ['s']⟩], [], [], []⟩ ['i'] [] (by decide)
      (by decide)
      ((c5_resolver_strategy_order (fun _ _ => none) (fun _ _ => none) ['u']
        ⟨['i'], ['u'], ("f.pdf".toList), [], [], ['s']⟩).2.2.2.1 rfl parsePublicUrl_nil
        (fun c _ => rfl))

/-- Strings ending in a final slash-free segment agree on that segment. -/
theorem last_segment_eq {X Y a b : Str} (ha : ('/' : Char) ∉ a) (hb : ('/' : Char) ∉ b)
    (h : X ++ '/' :: a = Y ++ '/' :: b) : a = b := by
  have h2 := congrArg List.reverse h
  rw [List.reverse_append, List.reverse_append, List.reverse_cons, List.reverse_cons] at h2
  rw [List.append_assoc, List.append_assoc] at h2
  rw [List.singleton_append, List.singleton_append] at h2
  have h3 := congrArg (List.takeWhile (fun c => c != '/')) h2
  rw [takeWhile_append_stop _ _ _
      (fun x hx => bne_iff_ne.mpr (fun he => ha (by
        rw [← he]; exact List.mem_reverse.mp hx)))
      (by decide),
    takeWhile_append_stop _ _ _
      (fun x hx => bne_iff_ne.mpr (fun he => hb (by
        rw [← he]; exact List.mem_reverse.mp hx)))
      (by decide)] at h3
  exact List.reverse_injective h3

/-- A successful probe returns one of the candidate paths. -/
theorem firstProbe_mem {sign : Sign} :
    ∀ {cs : List Str}, firstProbe sign cs ≠ [] → firstProbe sign cs ∈ cs := by
  intro cs
  induction cs with
  | nil => intro h; exact absurd rfl h
  | cons c cs2 ih =>
    intro h
    by_cases hc : (generate_pdf_signed_url sign c 60).isSome = true
    · simp [firstProbe, hc]
    · simp only [firstProbe, hc, if_false] at h ⊢
      exact List.mem_cons_of_mem _ (ih h)

/-- C10 counterexample: when the client-supplied filename contains a slash,
one of the three fallback candidates does equal the freshly generated
storage path even though the filename differs from the generated object
name — here `u/g.pdf` makes the namespace-prefixed bare candidate
`pdfs/u/g.pdf` coincide with the stored path. -/
theorem c10_counterexample_candidate_hits_path :
    ((upload_pdf (fun _ _ => some ['U']) ⟨[], [], [], []⟩ [] ['u'] ("u/g.pdf".toList)
        ("application/pdf".toList) 10 ['g'] ['r'] true).1 =
      Except.ok ⟨['r'], ['u'], ("u/g.pdf".toList), ("pdfs/u/g.pdf".toList), ['U'],
        ("pending".toList)⟩) ∧
    (("u/g.pdf".toList) ≠ ['g'] ++ (".pdf".toList)) ∧
    (("pdfs/u/g.pdf".toList) ∈ pdfCandidatePaths ['u'] ("u/g.pdf".toList)) := by decide

/-- C10 (amended): `upload_pdf` persists the path
`pdfs/{owner}/{gen}.pdf` with a freshly generated object name while the
record keeps the client's original filename; provided the original
filename contains no slash (and the generated name, a UUID, contains
none), a filename different from the generated object name makes every
fallback candidate differ from the stored path, so strategy-3 probing can
never return the path this upload wrote. -/
theorem c10_amended_generated_path_never_probed
    (sign : Sign) (db : DB) (store : Store) (uid fn : Str) (size : Nat) (gen recId url : Str)
    (hsz : ¬ size > 200 * 1024 * 1024)
    (hmem : store.contains ("pdfs/".toList ++ uid ++ "/".toList ++ (gen ++ ".pdf".toList)) = false)
    (hsig : sign ("pdfs/".toList ++ uid ++ "/".toList ++ (gen ++ ".pdf".toList)) 604800 = some url)
    (hfn : ('/' : Char) ∉ fn) (hgen : ('/' : Char) ∉ gen)
    (hne : fn ≠ gen ++ (".pdf".toList)) :
    upload_pdf sign db store uid fn ("application/pdf".toList) size gen recId true =
      (.ok ⟨recId, uid, fn, "pdfs/".toList ++ uid ++ "/".toList ++ (gen ++ ".pdf".toList), url,
        ("pending".toList)⟩,
       { db with pdf_files := db.pdf_files ++ [⟨recId, uid, fn,
          "pdfs/".toList ++ uid ++ "/".toList ++ (gen ++ ".pdf".toList), url,
          ("pending".toList)⟩] },
       store ++ ["pdfs/".toList ++ uid ++ "/".toList ++ (gen ++ ".pdf".toList)]) ∧
    (∀ c ∈ pdfCandidatePaths uid fn,
        c ≠ "pdfs/".toList ++ uid ++ "/".toList ++ (gen ++ ".pdf".toList)) ∧
    (∀ sign2 : Sign, firstProbe sign2 (pdfCandidatePaths uid fn) ≠
        "pdfs/".toList ++ uid ++ "/".toList ++ (gen ++ ".pdf".toList)) := by
  have hobj : ('/' : Char) ∉ gen ++ (".pdf".toList) := by
    intro hm
    rcases List.mem_append.mp hm with hm | hm
    · exact hgen hm
    · exact absurd hm (by decide)
  have hcand : ∀ c ∈ pdfCandidatePaths uid fn,
      c ≠ "pdfs/".toList ++ uid ++ "/".toList ++ (gen ++ ".pdf".toList) := by
    intro c hc
    simp only [pdfCandidatePaths, List.mem_cons, List.not_mem_nil, or_false] at hc
    rcases hc with hc | hc | hc <;> subst hc <;> intro hEq
    · exact hne (List.append_cancel_left hEq)
    · rw [show ("pdfs/".toList ++ uid ++ "/".toList ++ (gen ++ (".pdf".toList)) : Str) =
          "pdfs/".toList ++ (uid ++ ("/".toList ++ (gen ++ (".pdf".toList)))) from by
        simp [List.append_assoc]] at hEq
      have := List.append_cancel_left hEq
      apply hfn
      rw [this]
      simp [List.mem_append]
    · rw [show (uid ++ "/".toList ++ fn : Str) = uid ++ '/' :: fn from by
          rw [List.append_assoc]; rfl,
        show ("pdfs/".toList ++ uid ++ "/".toList ++ (gen ++ (".pdf".toList)) : Str) =
          ("pdfs/".toList ++ uid) ++ '/' :: (gen ++ (".pdf".toList)) from by
          rw [List.append_assoc, List.append_assoc]; rfl] at hEq
      exact hne (last_segment_eq hfn hobj hEq)
  refine ⟨?_, hcand, ?_⟩
  · unfold upload_pdf
    rw [if_neg (not_not_intro rfl), if_neg hsz]
    simp only [hmem, Bool.false_eq_true, if_false, hsig, if_true]
  · intro sign2 hEq
    have hne2 : firstProbe sign2 (pdfCandidatePaths uid fn) ≠ [] := by
      rw [hEq]
      simp
    exact hcand _ (firstProbe_mem hne2) hEq

/-- Witness for C10: a slash-free filename `doc.pdf` and generated name
`g` give a stored path `pdfs/u/g.pdf` that no candidate matches. -/
theorem c10_amended_generated_path_never_probed_witness :
    upload_pdf (fun _ _ => some ['U']) ⟨[], [], [], []⟩ [] ['u'] ("doc.pdf".toList)
        ("application/pdf".toList) 10 ['g'] ['r'] true =
      (.ok ⟨['r'], ['u'], ("doc.pdf".toList),
        "pdfs/".toList ++ ['u'] ++ "/".toList ++ (['g'] ++ ".pdf".toList), ['U'],
        ("pending".toList)⟩,
       { pdf_files := [⟨['r'], ['u'], ("doc.pdf".toList),
          "pdfs/".toList ++ ['u'] ++ "/".toList ++ (['g'] ++ ".pdf".toList), ['U'],
          ("pending".toList)⟩], csv_datasets := [], chat_sessions := [], chat_messages := [] },
       ["pdfs/".toList ++ ['u'] ++ "/".toList ++ (['g'] ++ ".pdf".toList)]) ∧
    (∀ c ∈ pdfCandidatePaths ['u'] ("doc.pdf".toList),
        c ≠ "pdfs/".toList ++ ['u'] ++ "/".toList ++ (['g'] ++ ".pdf".toList)) ∧
    (∀ sign2 : Sign, firstProbe sign2 (pdfCandidatePaths ['u'] ("doc.pdf".toList)) ≠
        "pdfs/".toList ++ ['u'] ++ "/".toList ++ (['g'] ++ ".pdf".toList)) :=
  c10_amended_generated_path_never_probed (fun _ _ => some ['U']) ⟨[], [], [], []⟩ [] ['u']
    ("doc.pdf".toList) 10 ['g'] ['r'] ['U'] (by decide) (by decide) rfl
    (by decide) (by decide) (by decide)

/-- Witness for C8: deleting a concrete owned session with one message
leaves no messages for that session and makes `listMessages` fail 404. -/
theorem c8_delete_session_cascades_witness :
    ∃ db2, delete_chat_session
        ⟨[], [], [⟨['s'], ['u'], ['t'], ['f'], []⟩], [⟨['m'], ['s'], ['c']⟩]⟩ ['s'] ['u'] =
        (.ok (), db2) ∧
      (∀ m ∈ db2.chat_messages, m.session_id ≠ ['s']) ∧
      get_chat_messages db2 ['s'] ['u'] 100 = .error 404 :=
  c8_delete_session_cascades
    ⟨[], [], [⟨['s'], ['u'], ['t'], ['f'], []⟩], [⟨['m'], ['s'], ['c']⟩]⟩ ['s'] ['u'] 100
    (by decide) ⟨⟨['s'], ['u'], ['t'], ['f'], []⟩, by simp, rfl, rfl⟩

end Nova
